import Mathlib

/-!
Verification of the access-log ingestion script (`scripts/logs.js`).

The script streams a JSON-per-line access log, validates and normalizes each
record through a fixed chain of field validators, partitions lines into an
accepted and a rejected sequence, reports failures to a webhook, and bulk
inserts the accepted entries into MySQL in chunks of 20000.

Modelling conventions:
* JavaScript numbers obtained from `Number(string)` are modelled exactly by
  `JSNum`: `nan`, signed infinity, or a rational value (the float rounding of
  JavaScript is idealized away; no claim depends on it).
* External collaborators (`net.isIP`, `Date` parsing, `decodeURI`, `isbot`,
  `ua-parser-js`) are parameters gathered in `Externals`; a parser field that
  is `undefined` or empty (both falsy in JavaScript) is modelled as `""` or
  `none` as noted on each definition.
* Asynchronous effects are modelled by explicit result values and event
  traces: the promise chain in `loadEntries` is a `Except`-valued pipeline,
  `insertEntries` records the issued queries and whether `pool.end()` ran,
  and `main` is a trace of saga events.
-/

set_option maxHeartbeats 1000000
set_option maxRecDepth 16384

deriving instance DecidableEq for Except

/-- Characters treated as whitespace by JavaScript string trimming and by
`Number` coercion (`StrWhiteSpace`: ASCII whitespace, NBSP, Unicode space
separators, line separators and the BOM). -/
def jsWhitespaceChars : List Char :=
  ['\t', '\n', '\u000B', '\u000C', '\r', ' ', ' ', ' ', ' ',
   ' ', ' ', ' ', ' ', ' ', ' ', ' ',
   ' ', ' ', ' ', ' ', ' ', ' ', ' ',
   '　', '﻿']

/-- Whether a character is JavaScript whitespace. -/
def jsIsWhitespace (c : Char) : Bool :=
  jsWhitespaceChars.contains c

/-- Model of `String.prototype.trim` (also the trimming step of `Number`):
drop leading and trailing JavaScript whitespace. -/
def jsTrim (s : String) : String :=
  ⟨((s.toList.dropWhile jsIsWhitespace).reverse.dropWhile jsIsWhitespace).reverse⟩

/-- Model of `String.prototype.toUpperCase` (the script only uppercases
ASCII data): uppercase every character. -/
def jsToUpper (s : String) : String :=
  ⟨s.toList.map Char.toUpper⟩

/-- A JavaScript number as produced by `Number(string)`: `NaN`, a signed
infinity, or a finite value (idealized as an exact rational). -/
inductive JSNum where
  | nan : JSNum
  | inf : Bool → JSNum
  | num : ℚ → JSNum
deriving DecidableEq, Repr

/-- Numeric value of a list of decimal digit characters. -/
def natOfDigits (cs : List Char) : ℕ :=
  cs.foldl (fun a c => 10 * a + (c.toNat - 48)) 0

/-- Value of a hexadecimal digit character, if it is one. -/
def hexDigitVal (c : Char) : Option ℕ :=
  if '0' ≤ c ∧ c ≤ '9' then some (c.toNat - 48)
  else if 'a' ≤ c ∧ c ≤ 'f' then some (c.toNat - 87)
  else if 'A' ≤ c ∧ c ≤ 'F' then some (c.toNat - 55)
  else none

/-- Value of a digit character in a radix up to 10 (binary and octal
literals), if it is in range. -/
def radixDigitVal (b : ℕ) (c : Char) : Option ℕ :=
  if '0' ≤ c ∧ c.toNat < 48 + b then some (c.toNat - 48) else none

/-- Parse a whole digit string in a given radix; `none` when empty or when a
character is out of range. -/
def parseRadix (digit : Char → Option ℕ) (b : ℕ) (cs : List Char) : Option ℕ :=
  if cs.isEmpty then none
  else cs.foldl (fun acc c => acc.bind fun a => (digit c).map fun d => b * a + d) (some 0)

/-- Parse the optional exponent suffix of a decimal literal applied to an
already-parsed mantissa; the whole remainder must be consumed. -/
def parseExponent (base : ℚ) (cs : List Char) : Option ℚ :=
  match cs with
  | [] => some base
  | e :: rest =>
    if e = 'e' ∨ e = 'E' then
      let signed : Bool × List Char :=
        match rest with
        | '+' :: t => (false, t)
        | '-' :: t => (true, t)
        | t => (false, t)
      let ds := signed.2
      if ds.isEmpty ∨ ¬ ds.all Char.isDigit then none
      else
        let ex : ℤ := if signed.1 then -(natOfDigits ds : ℤ) else (natOfDigits ds : ℤ)
        some (base * (10 : ℚ) ^ ex)
    else none

/-- Parse an unsigned decimal literal (`digits`, `digits.digits`, `.digits`,
optional exponent); `none` when the string is not entirely such a literal. -/
def parseDecimal (cs : List Char) : Option ℚ :=
  let ds := cs.takeWhile Char.isDigit
  let r1 := cs.dropWhile Char.isDigit
  match r1 with
  | '.' :: r2 =>
    let fs := r2.takeWhile Char.isDigit
    let r3 := r2.dropWhile Char.isDigit
    if ds.isEmpty ∧ fs.isEmpty then none
    else parseExponent ((natOfDigits ds : ℚ) + (natOfDigits fs : ℚ) / (10 : ℚ) ^ fs.length) r3
  | _ =>
    if ds.isEmpty then none else parseExponent (natOfDigits ds : ℚ) r1

/-- Model of JavaScript `Number(string)` (the `StringToNumber` coercion):
trim, empty maps to `0`, then an optionally signed decimal literal, an
`Infinity` form, or an unsigned `0x`/`0o`/`0b` radix literal; anything else
is `NaN`. -/
def jsNumber (s : String) : JSNum :=
  match (jsTrim s).toList with
  | [] => JSNum.num 0
  | '+' :: rest =>
    if rest = "Infinity".toList then JSNum.inf false
    else match parseDecimal rest with
      | some q => JSNum.num q
      | none => JSNum.nan
  | '-' :: rest =>
    if rest = "Infinity".toList then JSNum.inf true
    else match parseDecimal rest with
      | some q => JSNum.num (-q)
      | none => JSNum.nan
  | t =>
    if t = "Infinity".toList then JSNum.inf false
    else match t with
      | '0' :: x :: rest =>
        if x = 'x' ∨ x = 'X' then
          match parseRadix hexDigitVal 16 rest with
          | some n => JSNum.num (n : ℚ)
          | none => JSNum.nan
        else if x = 'o' ∨ x = 'O' then
          match parseRadix (radixDigitVal 8) 8 rest with
          | some n => JSNum.num (n : ℚ)
          | none => JSNum.nan
        else if x = 'b' ∨ x = 'B' then
          match parseRadix (radixDigitVal 2) 2 rest with
          | some n => JSNum.num (n : ℚ)
          | none => JSNum.nan
        else match parseDecimal t with
          | some q => JSNum.num q
          | none => JSNum.nan
      | _ =>
        match parseDecimal t with
        | some q => JSNum.num q
        | none => JSNum.nan

/-- Model of `Array.prototype.includes` on a list of (finite) numbers applied
to a `JSNum`: `NaN` and infinities are never members of the status whitelist. -/
def jsIncludes (l : List ℚ) (n : JSNum) : Bool :=
  match n with
  | JSNum.num q => l.contains q
  | _ => false

/-- The maximum stored length for path, query, referer, user and user-agent
fields (`MAX_PATH_QUERY_LENGTH`). -/
def MAX_PATH_QUERY_LENGTH : ℕ := 255

/-- The maximum stored length for the country field (`MAX_COUNTRY_LENGTH`). -/
def MAX_COUNTRY_LENGTH : ℕ := 8

/-- Rows per bulk insert (`CHUNK_SIZE`). -/
def CHUNK_SIZE : ℕ := 20000

/-- The method whitelist (`VALID_HTTP_METHODS`), which includes the sentinel
`-` that Apache writes for "no method". -/
def VALID_HTTP_METHODS : List String :=
  ["GET", "HEAD", "POST", "PUT", "DELETE", "CONNECT", "OPTIONS", "TRACE",
   "PATCH", "-"]

/-- The status whitelist (`VALID_HTTP_STATUSES`), standard codes plus the
Nginx-specific 444, 497, 498, 499. -/
def VALID_HTTP_STATUSES : List ℚ :=
  [100, 101, 102, 103, 200, 201, 202, 203, 204, 206, 207, 208, 226, 300, 301,
   302, 303, 304, 307, 308, 400, 401, 402, 403, 404, 405, 406, 407, 408, 409,
   410, 411, 412, 413, 414, 415, 416, 417, 418, 421, 422, 423, 424, 425, 426,
   428, 429, 431, 444, 450, 451, 497, 498, 499, 500, 501, 502, 503, 504, 505,
   506, 507, 508, 510, 511]

/-- A raw record as decoded from one JSON line, after `checkFieldsAreStrings`:
every field is a string. -/
structure RawRecord where
  host : String
  user : String
  time : String
  method : String
  path : String
  query : String
  status : String
  responseSize : String
  processTime : String
  referer : String
  userAgent : String
  country : String
deriving DecidableEq, Repr

/-- The result of `ua-parser-js` on a user-agent string. A field the parser
leaves `undefined` or empty (both falsy in JavaScript) is modelled as `""`. -/
structure UAParseResult where
  browserName : String
  osName : String
  osVersion : String
  deviceType : String
deriving DecidableEq, Repr

/-- The external collaborators of the validator chain: `net.isIP`, `Date`
parsing (`none` models an Invalid Date), `decodeURI` (`Except.error` models a
thrown `URIError`), `isbot`, and `ua-parser-js`. -/
structure Externals where
  isIP : String → Bool
  parseDate : String → Option Int
  decodeURI : String → Except String String
  isbot : String → Bool
  uaParse : String → UAParseResult

/-- The user-agent derived fields produced by `decomposeUserAgent`. -/
structure UAFields where
  bot : Bool
  browser : Option String
  deviceType : String
  os : Option String
  userAgent : Option String
deriving DecidableEq, Repr

/-- A validated, storage-ready entry (the fields `insertEntries` persists). -/
structure Entry where
  host : String
  user : Option String
  time : Int
  method : Option String
  path : Option String
  query : Option String
  status : JSNum
  responseSize : JSNum
  processTime : JSNum
  referer : String
  userAgent : Option String
  bot : Bool
  browser : Option String
  deviceType : String
  os : Option String
  country : Option String
deriving DecidableEq, Repr

/-- Validator `checkValidIP`: reject unless `isIP(host)` is truthy; the host
field itself is left unchanged. -/
def checkValidIP (ext : Externals) (r : RawRecord) : Except String Unit :=
  if ext.isIP r.host then Except.ok () else Except.error s!"Invalid IP address: {r.host}"

/-- Validator `checkValidTime`: `new Date(time)` must not be an Invalid Date;
the parsed timestamp (milliseconds) replaces the raw string. -/
def checkValidTime (ext : Externals) (r : RawRecord) : Except String Int :=
  match ext.parseDate r.time with
  | some t => Except.ok t
  | none => Except.error s!"Invalid time: {r.time}"

/-- Validator `checkValidMethod`: uppercase the method, require membership in
`VALID_HTTP_METHODS`, and store the sentinel `-` as absent. -/
def checkValidMethod (r : RawRecord) : Except String (Option String) :=
  let method := jsToUpper r.method
  if VALID_HTTP_METHODS.contains method then
    Except.ok (if method = "-" then none else some method)
  else
    Except.error s!"Invalid HTTP method: {method}"

/-- Validator `checkPathQuery`: URI-decode path then query (a thrown
`URIError` propagates), truncate both to 255, store a `-` path and an empty
query as absent. -/
def checkPathQuery (ext : Externals) (r : RawRecord) :
    Except String (Option String × Option String) :=
  match ext.decodeURI r.path with
  | Except.error e => Except.error e
  | Except.ok pathD =>
    match ext.decodeURI r.query with
    | Except.error e => Except.error e
    | Except.ok queryD =>
      let path := pathD.take MAX_PATH_QUERY_LENGTH
      let query := queryD.take MAX_PATH_QUERY_LENGTH
      Except.ok (if path = "-" then none else some path,
                 if query = "" then none else some query)

/-- Validator `checkStatus`: `Number(status)` must be a member of
`VALID_HTTP_STATUSES`; the number replaces the raw string. -/
def checkStatus (r : RawRecord) : Except String JSNum :=
  let status := jsNumber r.status
  if jsIncludes VALID_HTTP_STATUSES status then Except.ok status
  else Except.error s!"Invalid HTTP status: {r.status}"

/-- Validator `checkResponseSize`: `Number(responseSize)` must not be `NaN`. -/
def checkResponseSize (r : RawRecord) : Except String JSNum :=
  let responseSize := jsNumber r.responseSize
  if responseSize = JSNum.nan then
    Except.error s!"Invalid response size: {r.responseSize}"
  else Except.ok responseSize

/-- Validator `checkProcessTime`: `Number(processTime)` must not be `NaN`.
The failure message reproduces the source's text verbatim, which says
"Invalid response size" here as well. -/
def checkProcessTime (r : RawRecord) : Except String JSNum :=
  let processTime := jsNumber r.processTime
  if processTime = JSNum.nan then
    Except.error s!"Invalid response size: {r.processTime}"
  else Except.ok processTime

/-- Normalizer `trimReferer`: truncate to 255 characters, never absent. -/
def trimReferer (r : RawRecord) : String :=
  r.referer.take MAX_PATH_QUERY_LENGTH

/-- Normalizer `trimUser`: truncate to 255 characters, store `-` as absent. -/
def trimUser (r : RawRecord) : Option String :=
  let user := r.user.take MAX_PATH_QUERY_LENGTH
  if user = "-" then none else some user

/-- Normalizer `checkCountry`: store `-` as absent, otherwise truncate to 8
characters and uppercase. -/
def checkCountry (r : RawRecord) : Option String :=
  if r.country = "-" then none
  else some (jsToUpper (r.country.take MAX_COUNTRY_LENGTH))

/-- Classifier `decomposeUserAgent`: a `-` or empty user agent yields the
fixed unknown record; otherwise the bot flag comes from `isbot`, browser and
OS from the parser (empty parser fields are falsy and yield absent), the
device type is `unknown` for bots and otherwise the parsed type or `other`,
and the stored user agent is the original truncated to 255. -/
def decomposeUserAgent (ext : Externals) (r : RawRecord) : UAFields :=
  if r.userAgent = "-" ∨ r.userAgent = "" then
    { bot := false, browser := none, deviceType := "unknown", os := none,
      userAgent := none }
  else
    let bot := ext.isbot r.userAgent
    let ua := ext.uaParse r.userAgent
    let browser := if ua.browserName = "" then none else some ua.browserName
    let os :=
      if ua.osName = "" then none
      else if ua.osVersion = "" then some ua.osName
      else some (ua.osName ++ " " ++ ua.osVersion)
    let deviceType :=
      if bot then "unknown"
      else if ua.deviceType = "" then "other" else ua.deviceType
    { bot := bot, browser := browser, deviceType := deviceType, os := os,
      userAgent := some (r.userAgent.take MAX_PATH_QUERY_LENGTH) }

/-- The validator chain of `loadEntries` from a decoded record on, in source
order; the first failing validator short-circuits the rest. -/
def validateRecord (ext : Externals) (r : RawRecord) : Except String Entry := do
  let _ ← checkValidIP ext r
  let time ← checkValidTime ext r
  let method ← checkValidMethod r
  let pathQuery ← checkPathQuery ext r
  let status ← checkStatus r
  let responseSize ← checkResponseSize r
  let processTime ← checkProcessTime r
  let referer := trimReferer r
  let user := trimUser r
  let country := checkCountry r
  let ua := decomposeUserAgent ext r
  pure { host := r.host, user := user, time := time, method := method,
         path := pathQuery.1, query := pathQuery.2, status := status,
         responseSize := responseSize, processTime := processTime,
         referer := referer, userAgent := ua.userAgent, bot := ua.bot,
         browser := ua.browser, deviceType := ua.deviceType, os := ua.os,
         country := country }

/-- A rejected line paired with the message of the error that rejected it
(the `failed` entries of `loadEntries`). -/
structure FailedEntry where
  error : String
  line : String
deriving DecidableEq, Repr

/-- The per-line error wrapper of `loadEntries`: a falsy (empty) error
message is replaced by `Unknown error.`. -/
def failureMessage (err : String) : String :=
  if err = "" then "Unknown error." else err

/-- The Entry Loader `loadEntries`: stream the lines, skip the ones that are
blank after trimming, run the pipeline on each remaining line and append the
result to the accepted or to the rejected sequence in stream order. The
per-line pipeline (escaping fix, JSON decode and validator chain) is a
parameter. -/
def loadEntries (pipeline : String → Except String Entry) :
    List String → List Entry × List FailedEntry
  | [] => ([], [])
  | l :: ls =>
    let rest := loadEntries pipeline ls
    if jsTrim l = "" then rest
    else
      match pipeline l with
      | Except.ok e => (e :: rest.1, rest.2)
      | Except.error err =>
        (rest.1, { error := failureMessage err, line := l } :: rest.2)

/-- One numbered failure block of the webhook message built by
`reportFailedEntries` (`index` is 0-based here, displayed 1-based). -/
def formatFailedEntry (index : ℕ) (f : FailedEntry) : String :=
  s!"{index + 1}. Error: {f.error}, line:\n```json\n{f.line}```"

/-- What `reportFailedEntries` does: the message handed to `report` (absent
when nothing failed) and whether the complete failed list was written to the
diagnostic channel (`console.debug`). -/
structure FailureReport where
  message : Option String
  debugLogged : Bool
deriving DecidableEq, Repr

/-- The failure-report step `reportFailedEntries`: nothing on an empty list;
otherwise a webhook message built from the first five failures plus the total
count, and a `console.debug` dump of the whole list only when more than five
entries failed. -/
def reportFailedEntries (entries : List FailedEntry) : FailureReport :=
  if entries.length = 0 then { message := none, debugLogged := false }
  else
    let formattedEntries := String.join ((entries.take 5).mapIdx formatFailedEntry)
    { message :=
        some s!"{entries.length} entries failed, first 5 are displayed:\n{formattedEntries}",
      debugLogged := decide (5 < entries.length) }

/-- A value in a bulk-insert row. -/
inductive JSValue where
  | null : JSValue
  | str : String → JSValue
  | numv : JSNum → JSValue
  | boolean : Bool → JSValue
  | date : Int → JSValue
deriving DecidableEq, Repr

/-- A bulk-insert row (the 16 columns of the `logs` table, in query order). -/
abbrev Row := List JSValue

/-- An absent-able string column value. -/
def optStr : Option String → JSValue
  | none => JSValue.null
  | some s => JSValue.str s

/-- The row `insertEntries` builds from one entry, in the column order of the
insert statement. -/
def rowOf (e : Entry) : Row :=
  [JSValue.str e.host, optStr e.user, JSValue.date e.time, optStr e.method,
   optStr e.path, optStr e.query, JSValue.numv e.status,
   JSValue.numv e.responseSize, JSValue.numv e.processTime,
   JSValue.str e.referer, optStr e.userAgent, JSValue.boolean e.bot,
   optStr e.browser, JSValue.str e.deviceType, optStr e.os, optStr e.country]

/-- The chunking loop of `insertEntries` (`for start = 0; start < length;
start += CHUNK_SIZE` over `slice(start, start + CHUNK_SIZE)`): consecutive
chunks of at most `CHUNK_SIZE` entries. -/
def chunkify {α : Type} : List α → List (List α)
  | [] => []
  | x :: xs =>
    (x :: xs).take CHUNK_SIZE :: chunkify ((x :: xs).drop CHUNK_SIZE)
termination_by l => l.length
decreasing_by simp [List.length_drop, CHUNK_SIZE]; omega

/-- Issue the chunk queries in sequence: each successful `pool.query` is
recorded and the loop continues; a failing query is recorded, ends the loop
and propagates its error. -/
def runChunks (exec : List Row → Except String Unit) :
    List (List Entry) → List (List Row) × Except String Unit
  | [] => ([], Except.ok ())
  | c :: cs =>
    let rows := c.map rowOf
    match exec rows with
    | Except.error e => ([rows], Except.error e)
    | Except.ok _ =>
      let rest := runChunks exec cs
      (rows :: rest.1, rest.2)

/-- What one run of `insertEntries` did: the row lists passed to
`pool.query` in order, whether `pool.end()` ran, and the outcome returned to
the caller. -/
structure InsertRun where
  queries : List (List Row)
  poolClosed : Bool
  outcome : Except String Unit
deriving Repr

/-- The Batch Loader `insertEntries`: create the pool, insert the accepted
entries chunk by chunk, and call `pool.end()` after the loop — a statement
that is only reached when no chunk query threw. -/
def insertEntries (exec : List Row → Except String Unit) (entries : List Entry) :
    InsertRun :=
  let run := runChunks exec (chunkify entries)
  { queries := run.1,
    poolClosed := match run.2 with | Except.ok _ => true | Except.error _ => false,
    outcome := run.2 }

/-- An observable step of one `main` run. `report` swallows webhook delivery
errors, so the report steps never fail; the error message carried by the
failure report is elided (no claim depends on its text). -/
inductive SagaEvent where
  | reportStart : SagaEvent
  | backup : SagaEvent
  | parse : SagaEvent
  | truncate : SagaEvent
  | reportFailures : SagaEvent
  | insert : SagaEvent
  | reportSuccess : SagaEvent
  | reportError : SagaEvent
  | exit1 : SagaEvent
deriving DecidableEq, Repr

/-- The configuration and step outcomes one `main` run is exposed to: the two
CLI toggles and the result of each fallible awaited operation. -/
structure SagaEnv where
  doTruncate : Bool
  doInsert : Bool
  copyResult : Except String Unit
  parseResult : Except String (List Entry × List FailedEntry)
  truncateResult : Except String Unit
  insertResult : Except String Unit

/-- The trace of one `main` run: announce start; back up the source when
truncation is enabled; parse; truncate the source when enabled; report the
failed entries; insert when enabled; announce success. The first failing
awaited step jumps to the catch block, which reports the failure and exits
with status 1. -/
def mainTrace (env : SagaEnv) : List SagaEvent :=
  SagaEvent.reportStart ::
  (match (if env.doTruncate then env.copyResult else Except.ok ()) with
   | Except.error _ => [SagaEvent.reportError, SagaEvent.exit1]
   | Except.ok _ =>
     (if env.doTruncate then [SagaEvent.backup] else []) ++
     (match env.parseResult with
      | Except.error _ => [SagaEvent.reportError, SagaEvent.exit1]
      | Except.ok _ =>
        SagaEvent.parse ::
        (match (if env.doTruncate then env.truncateResult else Except.ok ()) with
         | Except.error _ => [SagaEvent.reportError, SagaEvent.exit1]
         | Except.ok _ =>
           (if env.doTruncate then [SagaEvent.truncate] else []) ++
           SagaEvent.reportFailures ::
           (match (if env.doInsert then env.insertResult else Except.ok ()) with
            | Except.error _ => [SagaEvent.reportError, SagaEvent.exit1]
            | Except.ok _ =>
              (if env.doInsert then [SagaEvent.insert] else []) ++
              [SagaEvent.reportSuccess]))))

/-- Concrete externals used by the closed witness and counterexample
theorems: a recognizer for one IP, one parsable date, an identity
`decodeURI`, one bot signature, and a parser that recognizes nothing. -/
def extTest : Externals :=
  { isIP := fun s => s == "1.2.3.4",
    parseDate := fun s => if s == "2024-01-01" then some 1704067200000 else none,
    decodeURI := fun s => Except.ok s,
    isbot := fun s => s == "TestBot/1.0",
    uaParse := fun _ =>
      { browserName := "", osName := "", osVersion := "", deviceType := "" } }

/-- A raw record that passes every validator under `extTest`; the concrete
theorems below vary single fields of it. -/
def sampleRecord : RawRecord :=
  { host := "1.2.3.4", user := "-", time := "2024-01-01", method := "GET",
    path := "/index", query := "", status := "200", responseSize := "512",
    processTime := "10", referer := "-", userAgent := "", country := "us" }

/-- Claim C1: the Entry Loader sends every non-blank line to exactly one of
the two output sequences, skips blank lines, preserves the input order in
both sequences, and the two lengths sum to the number of non-blank lines. -/
theorem loadEntries_partitions_nonblank_lines
    (pipeline : String → Except String Entry) (lines : List String) :
    (loadEntries pipeline lines).1 =
      (lines.filter fun l => !(jsTrim l == "")).filterMap
        (fun l => (pipeline l).toOption) ∧
    (loadEntries pipeline lines).2 =
      (lines.filter fun l => !(jsTrim l == "")).filterMap
        (fun l =>
          match pipeline l with
          | Except.ok _ => none
          | Except.error err => some { error := failureMessage err, line := l }) ∧
    (loadEntries pipeline lines).1.length + (loadEntries pipeline lines).2.length =
      (lines.filter fun l => !(jsTrim l == "")).length := by
  induction lines with
  | nil => simp [loadEntries]
  | cons l ls ih =>
    obtain ⟨ih1, ih2, ih3⟩ := ih
    by_cases h : jsTrim l = ""
    · simpa [loadEntries, h] using ⟨ih1, ih2, ih3⟩
    · refine ⟨?_, ?_, ?_⟩
      · cases hp : pipeline l with
        | ok e => simp [loadEntries, h, hp, Except.toOption, ih1]
        | error err => simp [loadEntries, h, hp, Except.toOption, ih1]
      · cases hp : pipeline l with
        | ok e => simp [loadEntries, h, hp, ih2]
        | error err => simp [loadEntries, h, hp, ih2]
      · cases hp : pipeline l with
        | ok e => simp [loadEntries, h, hp]; omega
        | error err => simp [loadEntries, h, hp]; omega

/-- Claim C10: a responseSize or processTime value that is empty or all
whitespace coerces to the number 0 (not NaN), so the numeric checks accept it
and store 0. -/
theorem blank_numeric_fields_coerce_to_zero (r : RawRecord) :
    (jsTrim r.responseSize = "" → checkResponseSize r = Except.ok (JSNum.num 0)) ∧
    (jsTrim r.processTime = "" → checkProcessTime r = Except.ok (JSNum.num 0)) := by
  constructor <;> intro h <;>
    simp [checkResponseSize, checkProcessTime, jsNumber, h]

/-- Claim C4 (the failing input): a record whose processTime does not coerce
to a number is rejected with a message that names the response-size field,
not the process-time field. -/
theorem checkProcessTime_reports_wrong_field :
    checkProcessTime { sampleRecord with processTime := "abc" } =
      Except.error "Invalid response size: abc" := by
  decide

/-- Claim C3 (counterexample): with a single rejected entry — a non-empty
rejected sequence of at most five elements — a notification is sent but the
complete list is never written to the diagnostic channel. -/
theorem reportFailedEntries_no_debug_log_at_one :
    ([{ error := "Invalid JSON.", line := "oops" }] : List FailedEntry) ≠ [] ∧
    (reportFailedEntries [{ error := "Invalid JSON.", line := "oops" }]).message.isSome
      = true ∧
    (reportFailedEntries [{ error := "Invalid JSON.", line := "oops" }]).debugLogged
      = false := by
  decide

/-- Claim C3 (amended): on a non-empty rejected sequence the step sends one
notification built from the first five failures (1-indexed) and the total
count, and it writes the complete rejected sequence to the diagnostic channel
exactly when more than five entries failed. -/
theorem reportFailedEntries_caps_summary_at_five
    (entries : List FailedEntry) (h : entries ≠ []) :
    (reportFailedEntries entries).message =
      some s!"{entries.length} entries failed, first 5 are displayed:\n{String.join ((entries.take 5).mapIdx formatFailedEntry)}" ∧
    ((entries.take 5).mapIdx formatFailedEntry).length = min 5 entries.length ∧
    ((reportFailedEntries entries).debugLogged = true ↔ 5 < entries.length) := by
  have hl : entries.length ≠ 0 := by simpa using h
  refine ⟨?_, ?_, ?_⟩
  · simp [reportFailedEntries, hl]
  · simp
  · simp [reportFailedEntries, hl]

/-- Witness for the amended C3 at one concrete rejected entry. -/
theorem reportFailedEntries_caps_summary_at_five_witness :
    (reportFailedEntries [{ error := "Invalid time: x", line := "l1" }]).message.isSome
      = true ∧
    ((reportFailedEntries [{ error := "Invalid time: x", line := "l1" }]).debugLogged
      = true ↔
      5 < ([{ error := "Invalid time: x", line := "l1" }] : List FailedEntry).length) := by
  have h := reportFailedEntries_caps_summary_at_five
    [{ error := "Invalid time: x", line := "l1" }] (by simp)
  exact ⟨by simp [h.1], h.2.2⟩

/-- Claim C9 (counterexample): the raw method `-` uppercases to a member of
the method whitelist and is accepted, but it is stored as absent, not as the
uppercased string `-`. -/
theorem checkValidMethod_dash_not_stored_uppercased :
    jsToUpper ({ sampleRecord with method := "-" } : RawRecord).method
      ∈ VALID_HTTP_METHODS ∧
    checkValidMethod { sampleRecord with method := "-" } ≠
      Except.ok (some (jsToUpper ({ sampleRecord with method := "-" } : RawRecord).method)) ∧
    checkValidMethod { sampleRecord with method := "-" } = Except.ok none := by
  decide

/-- Claim C9 (amended): method validation is case-insensitive — a record is
accepted by the method check exactly when its uppercased method is in the
whitelist, the stored method is the uppercased form, except that the
whitelist member `-` is stored as absent; otherwise the check rejects naming
the uppercased method. -/
theorem checkValidMethod_case_insensitive (r : RawRecord) :
    (jsToUpper r.method ∈ VALID_HTTP_METHODS →
      checkValidMethod r =
        Except.ok (if jsToUpper r.method = "-" then none else some (jsToUpper r.method))) ∧
    (jsToUpper r.method ∉ VALID_HTTP_METHODS →
      checkValidMethod r = Except.error s!"Invalid HTTP method: {jsToUpper r.method}") := by
  constructor <;> intro h <;> simp [checkValidMethod, h]

/-- Witness for the amended C9: the lowercase method `get` is accepted and
stored as `GET`. -/
theorem checkValidMethod_case_insensitive_witness :
    checkValidMethod { sampleRecord with method := "get" } = Except.ok (some "GET") := by
  have e : jsToUpper ({ sampleRecord with method := "get" } : RawRecord).method = "GET" := by
    decide
  have h := (checkValidMethod_case_insensitive { sampleRecord with method := "get" }).1
    (by decide)
  rw [e] at h
  simpa using h

/-- Claim C7 (counterexample): the user-agent field also maps the sentinel
`-` to absent — on a record that passes every validator, a raw user agent of
`-` is stored as absent, so the five fields named by the claim are not the
only sentinel-to-absent mappings. -/
theorem userAgent_sentinel_also_maps_to_absent :
    ({ sampleRecord with userAgent := "-" } : RawRecord).userAgent = "-" ∧
    (decomposeUserAgent extTest { sampleRecord with userAgent := "-" }).userAgent
      = none ∧
    (validateRecord extTest { sampleRecord with userAgent := "-" }).toOption.map
      Entry.userAgent = some none := by
  refine ⟨rfl, by decide, ?_⟩
  decide

/-- Claim C7 (amended): method `-`, user `-`, a decoded path `-` and a
country `-` normalize to absent, a decoded empty query normalizes to absent,
and additionally the user-agent field maps its sentinel `-` (and the empty
string) to absent, while the referer keeps the literal `-`. -/
theorem sentinel_values_normalize_to_absent (ext : Externals) (r : RawRecord) :
    (r.method = "-" → checkValidMethod r = Except.ok none) ∧
    (r.user = "-" → trimUser r = none) ∧
    (∀ pq, checkPathQuery ext r = Except.ok pq →
      (ext.decodeURI r.path = Except.ok "-" → pq.1 = none) ∧
      (ext.decodeURI r.query = Except.ok "" → pq.2 = none)) ∧
    (r.country = "-" → checkCountry r = none) ∧
    (r.userAgent = "-" ∨ r.userAgent = "" →
      (decomposeUserAgent ext r).userAgent = none) ∧
    (r.referer = "-" → trimReferer r = "-") := by
  refine ⟨?_, ?_, ?_, ?_, ?_, ?_⟩
  · intro h
    have e : jsToUpper r.method = "-" := by rw [h]; decide
    simp [checkValidMethod, e, VALID_HTTP_METHODS]
  · intro h
    have e : r.user.take MAX_PATH_QUERY_LENGTH = "-" := by rw [h]; decide
    simp [trimUser, e]
  · intro pq hpq
    constructor
    · intro hd
      cases hq : ext.decodeURI r.query with
      | error e => simp [checkPathQuery, hd, hq] at hpq
      | ok qd =>
        have e : ("-" : String).take MAX_PATH_QUERY_LENGTH = "-" := by decide
        simp [checkPathQuery, hd, hq, e] at hpq
        simp [← hpq]
    · intro hd
      cases hp : ext.decodeURI r.path with
      | error e => simp [checkPathQuery, hd, hp] at hpq
      | ok pd =>
        have e : ("" : String).take MAX_PATH_QUERY_LENGTH = "" := by decide
        simp [checkPathQuery, hd, hp, e] at hpq
        simp [← hpq]
  · intro h; simp [checkCountry, h]
  · intro h; simp [decomposeUserAgent, h]
  · intro h
    have e : ("-" : String).take MAX_PATH_QUERY_LENGTH = "-" := by decide
    simp [trimReferer, h, e]

/-- Claim C8: on a non-sentinel, non-empty user agent the classifier forces
deviceType to `unknown` whenever the bot heuristic fires, regardless of the
parser's device type; when it does not fire, deviceType is the parsed device
type, or `other` when the parser yields nothing. -/
theorem decomposeUserAgent_bot_forces_unknown_device (ext : Externals)
    (r : RawRecord) (h1 : r.userAgent ≠ "-") (h2 : r.userAgent ≠ "") :
    (ext.isbot r.userAgent = true →
      (decomposeUserAgent ext r).bot = true ∧
      (decomposeUserAgent ext r).deviceType = "unknown") ∧
    (ext.isbot r.userAgent = false →
      (decomposeUserAgent ext r).bot = false ∧
      (decomposeUserAgent ext r).deviceType =
        (if (ext.uaParse r.userAgent).deviceType = "" then "other"
         else (ext.uaParse r.userAgent).deviceType)) := by
  constructor <;> intro hb <;> simp [decomposeUserAgent, h1, h2, hb]

/-- Witness for C8 at a concrete bot user agent recognized by `extTest`. -/
theorem decomposeUserAgent_bot_witness :
    (decomposeUserAgent extTest { sampleRecord with userAgent := "TestBot/1.0" }).bot
      = true ∧
    (decomposeUserAgent extTest
      { sampleRecord with userAgent := "TestBot/1.0" }).deviceType = "unknown" := by
  exact (decomposeUserAgent_bot_forces_unknown_device extTest
    { sampleRecord with userAgent := "TestBot/1.0" }
    (by decide) (by decide)).1 (by decide)

/-- Joining the chunks gives back the original list. -/
theorem chunkify_flatten {α : Type} (l : List α) : (chunkify l).flatten = l := by
  induction l using chunkify.induct with
  | case1 => simp [chunkify]
  | case2 x xs ih => rw [chunkify]; simp [ih]

/-- Ceiling-division recurrence used by the chunk-count lemma. -/
theorem ceil_div_step (n C : ℕ) (hC : 0 < C) (hn : 0 < n) :
    (n - C + C - 1) / C + 1 = (n + C - 1) / C := by
  rcases le_or_lt n C with h | h
  · have h1 : n - C = 0 := by omega
    rw [h1]
    have h2 : (0 + C - 1) / C = 0 := Nat.div_eq_of_lt (by omega)
    rw [h2]
    symm
    exact Nat.div_eq_of_lt_le (by omega) (by omega)
  · have h1 : n - C + C - 1 = n - 1 := by omega
    have h2 : n + C - 1 = n - 1 + C := by omega
    rw [h1, h2, Nat.add_div_right _ hC]

/-- The loop issues exactly the ceiling of the list length over the chunk
size many chunks. -/
theorem chunkify_length {α : Type} (l : List α) :
    (chunkify l).length = (l.length + CHUNK_SIZE - 1) / CHUNK_SIZE := by
  induction l using chunkify.induct with
  | case1 => simp [chunkify]; decide
  | case2 x xs ih =>
    rw [chunkify]
    simp only [List.length_cons, List.length_drop] at ih ⊢
    rw [ih]
    exact ceil_div_step (xs.length + 1) CHUNK_SIZE (by decide) (by omega)

/-- Every chunk holds at most the chunk size many entries. -/
theorem chunkify_le_chunk_size {α : Type} (l : List α) :
    ∀ c ∈ chunkify l, c.length ≤ CHUNK_SIZE := by
  induction l using chunkify.induct with
  | case1 => simp [chunkify]
  | case2 x xs ih =>
    rw [chunkify]
    intro c hc
    rcases List.mem_cons.mp hc with h | h
    · subst h; exact List.length_take_le CHUNK_SIZE (x :: xs)
    · exact ih c h

/-- When every chunk query succeeded, the recorded queries are exactly the
chunks' rows in chunk order. -/
theorem runChunks_ok (exec : List Row → Except String Unit)
    (cs : List (List Entry)) (h : (runChunks exec cs).2 = Except.ok ()) :
    (runChunks exec cs).1 = cs.map (fun c => c.map rowOf) := by
  induction cs with
  | nil => rfl
  | cons c cs ih =>
    cases hx : exec (c.map rowOf) with
    | error e => simp [runChunks, hx] at h
    | ok u =>
      have h2 : (runChunks exec cs).2 = Except.ok () := by
        simp [runChunks, hx] at h
        exact h
      simp [runChunks, hx, ih h2]

/-- When a chunk query failed, the queries recorded are the successful
chunks followed by the failing one, later chunks are never issued, and the
error is the failing query's. -/
theorem runChunks_error (exec : List Row → Except String Unit)
    (cs : List (List Entry)) (msg : String)
    (h : (runChunks exec cs).2 = Except.error msg) :
    ∃ done failedChunk rest, cs = done ++ failedChunk :: rest ∧
      (∀ c ∈ done, exec (c.map rowOf) = Except.ok ()) ∧
      exec (failedChunk.map rowOf) = Except.error msg ∧
      (runChunks exec cs).1 = (done ++ [failedChunk]).map (fun c => c.map rowOf) := by
  induction cs with
  | nil => simp [runChunks] at h
  | cons c cs ih =>
    cases hx : exec (c.map rowOf) with
    | error e =>
      have he : e = msg := by simpa [runChunks, hx] using h
      subst he
      exact ⟨[], c, cs, by simp, by simp, hx, by simp [runChunks, hx]⟩
    | ok u =>
      have h2 : (runChunks exec cs).2 = Except.error msg := by
        simpa [runChunks, hx] using h
      obtain ⟨done, failedChunk, rest, hcs, hdone, hfail, hq⟩ := ih h2
      refine ⟨c :: done, failedChunk, rest, by simp [hcs], ?_, hfail, ?_⟩
      · intro d hd
        rcases List.mem_cons.mp hd with h | h
        · subst h; exact hx
        · exact hdone d h
      · simp [runChunks, hx, hq]

/-- Claim C5: the Batch Loader partitions the accepted entries into
consecutive chunks of at most 20000 rows, issues exactly the ceiling of
N over 20000 many bulk inserts in order when all succeed (covering every
entry in the original order), and on a failing chunk issues nothing after
the failing insert and propagates its error. -/
theorem insertEntries_chunks_in_order (exec : List Row → Except String Unit)
    (entries : List Entry) :
    (chunkify entries).flatten = entries ∧
    (chunkify entries).length = (entries.length + CHUNK_SIZE - 1) / CHUNK_SIZE ∧
    (∀ c ∈ chunkify entries, c.length ≤ CHUNK_SIZE) ∧
    ((insertEntries exec entries).outcome = Except.ok () →
      (insertEntries exec entries).queries =
        (chunkify entries).map (fun c => c.map rowOf)) ∧
    (∀ msg, (insertEntries exec entries).outcome = Except.error msg →
      ∃ done failedChunk rest, chunkify entries = done ++ failedChunk :: rest ∧
        (∀ c ∈ done, exec (c.map rowOf) = Except.ok ()) ∧
        exec (failedChunk.map rowOf) = Except.error msg ∧
        (insertEntries exec entries).queries =
          (done ++ [failedChunk]).map (fun c => c.map rowOf)) := by
  refine ⟨chunkify_flatten entries, chunkify_length entries,
    chunkify_le_chunk_size entries, ?_, ?_⟩
  · intro h
    exact runChunks_ok exec (chunkify entries) h
  · intro msg h
    exact runChunks_error exec (chunkify entries) msg h

/-- A single concrete entry matching `sampleRecord` under `extTest`. -/
def sampleEntry : Entry :=
  { host := "1.2.3.4", user := none, time := 1704067200000, method := some "GET",
    path := some "/index", query := none, status := JSNum.num 200,
    responseSize := JSNum.num 512, processTime := JSNum.num 10, referer := "-",
    userAgent := none, bot := false, browser := none, deviceType := "unknown",
    os := none, country := some "US" }

/-- Claim C2 (counterexample): when the single chunk insert fails, the
failure propagates to the caller but `pool.end()` is never executed — the
pool is not closed on a failing run. -/
theorem insertEntries_pool_left_open_on_failure :
    (insertEntries (fun _ => Except.error "insert failed") [sampleEntry]).poolClosed
      = false ∧
    (insertEntries (fun _ => Except.error "insert failed") [sampleEntry]).outcome
      = Except.error "insert failed" := by
  have h : chunkify [sampleEntry] = [[sampleEntry]] := by
    rw [chunkify]
    norm_num [CHUNK_SIZE, chunkify]
  constructor <;> simp [insertEntries, h, runChunks]

/-- Claim C2 (amended): the pool created by the Batch Loader is closed
before the load returns exactly when every chunk insert succeeded; when a
chunk insert fails, the error propagates and the pool is not closed. -/
theorem insertEntries_pool_closed_iff_success (exec : List Row → Except String Unit)
    (entries : List Entry) :
    (insertEntries exec entries).poolClosed = true ↔
      (insertEntries exec entries).outcome = Except.ok () := by
  cases h : (runChunks exec (chunkify entries)).2 with
  | ok u => simp [insertEntries, h]
  | error e => simp [insertEntries, h]

/-- Position of the first occurrence of an event in a trace (the length of
the trace when the event does not occur). -/
def eventIndex (e : SagaEvent) : List SagaEvent → ℕ
  | [] => 0
  | x :: xs => if x = e then 0 else eventIndex e xs + 1

/-- Claim C6: the saga truncates the source only when truncation is enabled
and parsing succeeded, and then only after the parse step; when parsing
fails the truncate step is never reached; and with truncation enabled the
backup is made before parsing starts. -/
theorem mainTrace_truncates_only_after_parse (env : SagaEnv) :
    (SagaEvent.truncate ∈ mainTrace env →
      env.doTruncate = true ∧ (∃ p, env.parseResult = Except.ok p) ∧
      eventIndex SagaEvent.parse (mainTrace env) <
        eventIndex SagaEvent.truncate (mainTrace env)) ∧
    (∀ msg, env.parseResult = Except.error msg →
      SagaEvent.truncate ∉ mainTrace env) ∧
    (env.doTruncate = true → SagaEvent.parse ∈ mainTrace env →
      eventIndex SagaEvent.backup (mainTrace env) <
        eventIndex SagaEvent.parse (mainTrace env)) := by
  obtain ⟨dt, di, cr, pr, tr, ir⟩ := env
  cases dt <;> cases di <;> cases cr <;> cases pr <;> cases tr <;> cases ir <;>
    simp [mainTrace, eventIndex]
